import Mathlib

/-!
Shallow embedding of `load-testing/stress-test.py` (class
`AndroidWorldStressTester`), the load-testing core of the repository.

Conventions of the embedding:
* Python floats (timestamps, durations, rates) are modelled as `ℚ`.
* `TestResult` and `StressTestReport` mirror the two dataclasses field by
  field; dataclass defaults (`error = None`, `response_size = 0`) are kept.
* A fallible Python function that can `raise` is modelled with `Except`:
  `generate_report` raises `ValueError("No results to analyze")` on an
  empty result list.
* The outcome of the network exchange of one trial (status code and body,
  or a raised exception such as a timeout) is an input of the model
  (`NetResult`), since it is decided by the outside world.
* `statistics.quantiles(data, n)` (method `exclusive`, the default) is
  translated literally: sort, then for each `i` in `1..n-1` interpolate
  between the two data points around rank `i*(len+1)/n` with the index
  clamped into `[1, len-1]`.
-/

/-- Mirror of the Python dataclass `TestResult` (one outcome record). -/
structure TestResult where
  thread_id : ℕ
  start_time : ℚ
  end_time : ℚ
  duration : ℚ
  status_code : ℕ
  success : Bool
  error : Option String := none
  response_size : ℕ := 0
deriving Repr, DecidableEq

/-- Mirror of the Python dataclass `StressTestReport`. -/
structure StressTestReport where
  total_requests : ℕ
  successful_requests : ℕ
  failed_requests : ℕ
  success_rate : ℚ
  avg_response_time : ℚ
  min_response_time : ℚ
  max_response_time : ℚ
  p95_response_time : ℚ
  p99_response_time : ℚ
  max_concurrency_reached : ℕ
  total_duration : ℚ
  requests_per_second : ℚ
  cpu_usage_estimate : ℚ
  memory_usage_estimate : ℚ
deriving Repr, DecidableEq

/-- Python `max(l)` on a non-empty list (`0` is junk for `[]`, the code
only calls it under an emptiness guard). -/
def listMax : List ℚ → ℚ
  | [] => 0
  | x :: xs => xs.foldl max x

/-- Python `min(l)` on a non-empty list (`0` is junk for `[]`). -/
def listMin : List ℚ → ℚ
  | [] => 0
  | x :: xs => xs.foldl min x

/-- Linear interpolation step of `statistics.quantiles`:
`(data[j-1]*(n-delta) + data[j]*delta) / n`. -/
def interp (s : List ℚ) (n j δ : ℕ) : ℚ :=
  (s.getD (j - 1) 0 * ((n : ℚ) - (δ : ℚ)) + s.getD j 0 * (δ : ℚ)) / (n : ℚ)

/-- The index clamp `j = 1 if j < 1 else ld-1 if j > ld-1 else j` of
`statistics.quantiles` (method `exclusive`). -/
def clampIndex (ld j0 : ℕ) : ℕ := min (max j0 1) (ld - 1)

/-- One cut point of `statistics.quantiles(data, n)` for already-sorted
data `s`: `j, delta = divmod(i*(ld+1), n)` with the clamp, then the
interpolation. -/
def quantilePoint (s : List ℚ) (n i : ℕ) : ℚ :=
  interp s n (clampIndex s.length (i * (s.length + 1) / n)) (i * (s.length + 1) % n)

/-- `statistics.quantiles(data, n=n)` with the default `exclusive`
method: sorts the data and returns the `n-1` cut points. -/
def quantiles (data : List ℚ) (n : ℕ) : List ℚ :=
  (List.range (n - 1)).map (fun i0 => quantilePoint (data.insertionSort (· ≤ ·)) n (i0 + 1))

/-- The `p95` expression of `generate_report` (line 212):
`statistics.quantiles(durations, n=20)[18] if len(durations) >= 20 else
(max(durations) if durations else 0)`. -/
def reportP95 (durations : List ℚ) : ℚ :=
  if durations.length ≥ 20 then (quantiles durations 20).getD 18 0
  else if durations.isEmpty then 0 else listMax durations

/-- The `p99` expression of `generate_report` (line 213):
`statistics.quantiles(durations, n=100)[98] if len(durations) >= 100 else
(max(durations) if durations else 0)`. -/
def reportP99 (durations : List ℚ) : ℚ :=
  if durations.length ≥ 100 then (quantiles durations 100).getD 98 0
  else if durations.isEmpty then 0 else listMax durations

/-- Line 209 of `generate_report`:
`durations = [r.duration for r in results if r.success]`. -/
def successDurations (results : List TestResult) : List ℚ :=
  (results.filter (fun r => r.success)).map (fun r => r.duration)

/-- The report value built by `generate_report` once past the empty-input
guard (lines 206-234).  `max_workers` is the `self.max_workers` field of
the tester. -/
def reportOf (max_workers : ℕ) (results : List TestResult) (test_duration : ℚ) :
    StressTestReport :=
  let successful := results.filter (fun r => r.success)
  let failed := results.filter (fun r => !r.success)
  let durations := successDurations results
  { total_requests := results.length
    successful_requests := successful.length
    failed_requests := failed.length
    success_rate := (successful.length : ℚ) / (results.length : ℚ) * 100
    avg_response_time := if durations.isEmpty then 0 else durations.sum / (durations.length : ℚ)
    min_response_time := if durations.isEmpty then 0 else listMin durations
    max_response_time := if durations.isEmpty then 0 else listMax durations
    p95_response_time := reportP95 durations
    p99_response_time := reportP99 durations
    max_concurrency_reached := min results.length max_workers
    total_duration := test_duration
    requests_per_second :=
      if test_duration > 0 then (results.length : ℚ) / test_duration else 0
    cpu_usage_estimate := (results.length : ℚ) * (15 / 100 : ℚ)
    memory_usage_estimate := (results.length : ℚ) * 50 }

/-- `AndroidWorldStressTester.generate_report` (lines 201-234): raises
`ValueError("No results to analyze")` on an empty population, otherwise
returns the report. -/
def generate_report (max_workers : ℕ) (results : List TestResult)
    (test_duration : ℚ) : Except String StressTestReport :=
  if results.isEmpty then Except.error "No results to analyze"
  else Except.ok (reportOf max_workers results test_duration)

/-- What the outside world does to one trial's network exchange: either a
response (status code and body length) or a raised exception (timeout,
connection error, ...) carrying a message. -/
inductive NetResult where
  | respond (status : ℕ) (body_len : ℕ)
  | exn (msg : String)
deriving Repr, DecidableEq

/-- The environment one trial runs in: its wall-clock start and end
instants and what the network exchange produced. -/
structure TrialEnv where
  start_time : ℚ
  end_time : ℚ
  net : NetResult
deriving Repr, DecidableEq

/-- Junk environment used as the `getD` default (never reached at valid
indices). -/
def defaultEnv : TrialEnv := ⟨0, 0, NetResult.exn ""⟩

/-- `AndroidWorldStressTester.single_request` (lines 67-109): returns a
success outcome iff the status is exactly 200, and converts any raised
exception into a failed outcome with `status_code = 0` and the message as
the error description. -/
def single_request (thread_id : ℕ) (env : TrialEnv) : TestResult :=
  match env.net with
  | NetResult.respond status blen =>
      { thread_id := thread_id
        start_time := env.start_time
        end_time := env.end_time
        duration := env.end_time - env.start_time
        status_code := status
        success := status == 200
        response_size := blen }
  | NetResult.exn msg =>
      { thread_id := thread_id
        start_time := env.start_time
        end_time := env.end_time
        duration := env.end_time - env.start_time
        status_code := 0
        success := false
        error := some msg }

/-- The `worker` closure of `run_threaded_stress_test` (lines 135-180):
the same outcome construction as `single_request`, via `requests.post`. -/
def worker_result (thread_id : ℕ) (env : TrialEnv) : TestResult :=
  match env.net with
  | NetResult.respond status blen =>
      { thread_id := thread_id
        start_time := env.start_time
        end_time := env.end_time
        duration := env.end_time - env.start_time
        status_code := status
        success := status == 200
        response_size := blen }
  | NetResult.exn msg =>
      { thread_id := thread_id
        start_time := env.start_time
        end_time := env.end_time
        duration := env.end_time - env.start_time
        status_code := 0
        success := false
        error := some msg }

/-- `AndroidWorldStressTester.run_concurrent_requests` (lines 111-129):
`asyncio.gather` keeps task order, so the returned list is the outcomes of
trials `0..N-1` in submission order, one per trial environment. -/
def run_concurrent_requests (envs : List TrialEnv) : List TestResult :=
  envs.mapIdx (fun i env => single_request i env)

/-- `AndroidWorldStressTester.run_threaded_stress_test` (lines 131-199):
every worker appends its outcome to the persistent `self.results` list
(under the lock) and the method returns that list.  `init` is the
`self.results` contents when the method is entered; `order` is the
completion order of the `envs.length` workers (a permutation of
`0..envs.length-1` chosen by the scheduler). -/
def run_threaded_stress_test (init : List TestResult) (envs : List TrialEnv)
    (order : List ℕ) : List TestResult :=
  init ++ order.map (fun i => worker_result i (envs.getD i defaultEnv))

/-- One iteration of the thread-dispatch loop of
`run_threaded_stress_test` (lines 184-193), recording the in-flight
upper bound after each event: starting a thread raises the count by one;
when the count reaches the concurrency bound every thread is joined and
the count drops to zero. -/
def batchedStep (C : ℕ) (st : List ℕ × ℕ) (_i : ℕ) : List ℕ × ℕ :=
  let cnt := st.2 + 1
  if C ≤ cnt then (st.1 ++ [cnt, 0], 0) else (st.1 ++ [cnt], cnt)

/-- The trace of in-flight thread counts of a batched run of `N` trials
with concurrency bound `C`: the loop events followed by the final
join-all (lines 195-197). -/
def batchedInflight (N C : ℕ) : List ℕ :=
  ((List.range N).foldl (batchedStep C) ([], 0)).1 ++ [0]

instance {ε α : Type} [DecidableEq ε] [DecidableEq α] : DecidableEq (Except ε α) := fun a b =>
  match a, b with
  | Except.error e, Except.error f => decidable_of_iff (e = f) (by simp)
  | Except.error _, Except.ok _ => isFalse (by simp)
  | Except.ok _, Except.error _ => isFalse (by simp)
  | Except.ok x, Except.ok y => decidable_of_iff (x = y) (by simp)

/-- A concrete successful outcome used to instantiate theorems. -/
def resOk : TestResult :=
  { thread_id := 0, start_time := 0, end_time := 1, duration := 1,
    status_code := 200, success := true, response_size := 3 }

/-- A concrete failed outcome (connection error) used to instantiate
theorems. -/
def resFail : TestResult :=
  { thread_id := 1, start_time := 0, end_time := 2, duration := 2,
    status_code := 0, success := false, error := some "ConnectionError" }

/-- A successful outcome with a given id and duration, used to build
concrete populations. -/
def mkOk (i : ℕ) (dur : ℚ) : TestResult :=
  { thread_id := i, start_time := 0, end_time := dur, duration := dur,
    status_code := 200, success := true }

/-- The duration list `1, 2, ..., 20`. -/
def dur20 : List ℚ :=
  [1, 2, 3, 4, 5, 6, 7, 8, 9, 10, 11, 12, 13, 14, 15, 16, 17, 18, 19, 20]

/-- A population of 20 successful outcomes with durations `1, 2, ..., 20`. -/
def res20 : List TestResult :=
  [mkOk 0 1, mkOk 1 2, mkOk 2 3, mkOk 3 4, mkOk 4 5, mkOk 5 6, mkOk 6 7,
   mkOk 7 8, mkOk 8 9, mkOk 9 10, mkOk 10 11, mkOk 11 12, mkOk 12 13,
   mkOk 13 14, mkOk 14 15, mkOk 15 16, mkOk 16 17, mkOk 17 18, mkOk 18 19,
   mkOk 19 20]

/-- A concrete trial environment whose network exchange raised a timeout. -/
def envExn : TrialEnv := ⟨0, 1, NetResult.exn "timeout"⟩

/-- A concrete trial environment that got a `201 Created` response. -/
def env201 : TrialEnv := ⟨0, 1, NetResult.respond 201 5⟩

lemma le_foldl_max (xs : List ℚ) (a : ℚ) : a ≤ xs.foldl max a := by
  induction xs generalizing a with
  | nil => exact le_refl a
  | cons y ys ih => exact le_trans (le_max_left a y) (ih (max a y))

lemma mem_le_foldl_max (xs : List ℚ) (a x : ℚ) (hx : x ∈ xs) : x ≤ xs.foldl max a := by
  induction xs generalizing a with
  | nil => cases hx
  | cons y ys ih =>
      rcases List.mem_cons.mp hx with rfl | hx'
      · exact le_trans (le_max_right a x) (le_foldl_max ys (max a x))
      · exact ih (max a y) hx'

lemma foldl_max_mem (xs : List ℚ) (a : ℚ) : xs.foldl max a ∈ a :: xs := by
  induction xs generalizing a with
  | nil => exact List.mem_singleton.mpr rfl
  | cons y ys ih =>
      have h := ih (max a y)
      rcases List.mem_cons.mp h with h' | h'
      · rcases max_choice a y with hc | hc
        · exact List.mem_cons.mpr (Or.inl (h'.trans hc))
        · exact List.mem_cons.mpr (Or.inr (List.mem_cons.mpr (Or.inl (h'.trans hc))))
      · exact List.mem_cons.mpr (Or.inr (List.mem_cons.mpr (Or.inr h')))

lemma le_listMax {l : List ℚ} {x : ℚ} (hx : x ∈ l) : x ≤ listMax l := by
  cases l with
  | nil => cases hx
  | cons y ys =>
      rcases List.mem_cons.mp hx with rfl | hx'
      · exact le_foldl_max ys x
      · exact mem_le_foldl_max ys y x hx'

lemma listMax_mem {l : List ℚ} (hl : l ≠ []) : listMax l ∈ l := by
  cases l with
  | nil => exact absurd rfl hl
  | cons y ys => exact foldl_max_mem ys y

lemma foldl_min_le (xs : List ℚ) (a : ℚ) : xs.foldl min a ≤ a := by
  induction xs generalizing a with
  | nil => exact le_refl a
  | cons y ys ih => exact le_trans (ih (min a y)) (min_le_left a y)

lemma foldl_min_le_mem (xs : List ℚ) (a x : ℚ) (hx : x ∈ xs) : xs.foldl min a ≤ x := by
  induction xs generalizing a with
  | nil => cases hx
  | cons y ys ih =>
      rcases List.mem_cons.mp hx with rfl | hx'
      · exact le_trans (foldl_min_le ys (min a x)) (min_le_right a x)
      · exact ih (min a y) hx'

lemma foldl_min_mem (xs : List ℚ) (a : ℚ) : xs.foldl min a ∈ a :: xs := by
  induction xs generalizing a with
  | nil => exact List.mem_singleton.mpr rfl
  | cons y ys ih =>
      have h := ih (min a y)
      rcases List.mem_cons.mp h with h' | h'
      · rcases min_choice a y with hc | hc
        · exact List.mem_cons.mpr (Or.inl (h'.trans hc))
        · exact List.mem_cons.mpr (Or.inr (List.mem_cons.mpr (Or.inl (h'.trans hc))))
      · exact List.mem_cons.mpr (Or.inr (List.mem_cons.mpr (Or.inr h')))

lemma listMin_le {l : List ℚ} {x : ℚ} (hx : x ∈ l) : listMin l ≤ x := by
  cases l with
  | nil => cases hx
  | cons y ys =>
      rcases List.mem_cons.mp hx with rfl | hx'
      · exact foldl_min_le ys x
      · exact foldl_min_le_mem ys y x hx'

lemma listMin_mem {l : List ℚ} (hl : l ≠ []) : listMin l ∈ l := by
  cases l with
  | nil => exact absurd rfl hl
  | cons y ys => exact foldl_min_mem ys y

lemma listMax_perm {l₁ l₂ : List ℚ} (h : l₁.Perm l₂) : listMax l₁ = listMax l₂ := by
  cases l₁ with
  | nil => rw [List.Perm.nil_eq h]
  | cons y ys =>
      have h₂ : l₂ ≠ [] := by
        intro hc; rw [hc] at h; exact List.cons_ne_nil y ys (List.Perm.eq_nil h)
      refine le_antisymm ?_ ?_
      · exact le_listMax (h.mem_iff.mp (listMax_mem (List.cons_ne_nil y ys)))
      · exact le_listMax (h.mem_iff.mpr (listMax_mem h₂))

lemma listMin_perm {l₁ l₂ : List ℚ} (h : l₁.Perm l₂) : listMin l₁ = listMin l₂ := by
  cases l₁ with
  | nil => rw [List.Perm.nil_eq h]
  | cons y ys =>
      have h₂ : l₂ ≠ [] := by
        intro hc; rw [hc] at h; exact List.cons_ne_nil y ys (List.Perm.eq_nil h)
      refine le_antisymm ?_ ?_
      · exact listMin_le (h.mem_iff.mpr (listMin_mem h₂))
      · exact listMin_le (h.mem_iff.mp (listMin_mem (List.cons_ne_nil y ys)))

lemma length_filter_add_not {α : Type} (p : α → Bool) (l : List α) :
    (l.filter p).length + (l.filter (fun a => !p a)).length = l.length := by
  induction l with
  | nil => rfl
  | cons x xs ih =>
      by_cases hx : p x = true <;> simp [List.filter_cons, hx] <;> omega

lemma getD_mem_of_lt (s : List ℚ) (k : ℕ) (hk : k < s.length) : s.getD k 0 ∈ s := by
  rw [List.getD_eq_getElem?_getD, List.getElem?_eq_getElem hk]
  exact List.getElem_mem hk

lemma sorted_getD_mono {s : List ℚ} (hs : s.Sorted (· ≤ ·)) {a b : ℕ}
    (hab : a ≤ b) (hb : b < s.length) : s.getD a 0 ≤ s.getD b 0 := by
  have ha : a < s.length := lt_of_le_of_lt hab hb
  rw [List.getD_eq_getElem?_getD, List.getElem?_eq_getElem ha,
    List.getD_eq_getElem?_getD, List.getElem?_eq_getElem hb]
  exact hs.rel_get_of_le (a := ⟨a, ha⟩) (b := ⟨b, hb⟩) hab

lemma interp_le_of_endpoints_le {s : List ℚ} {n j δ : ℕ} {M : ℚ} (hδ : δ < n)
    (h1 : s.getD (j - 1) 0 ≤ M) (h2 : s.getD j 0 ≤ M) : interp s n j δ ≤ M := by
  have hn : (0 : ℚ) < (n : ℚ) := by exact_mod_cast Nat.pos_of_ne_zero (by omega)
  have hd0 : (0 : ℚ) ≤ (δ : ℚ) := Nat.cast_nonneg δ
  have hdn : (δ : ℚ) ≤ (n : ℚ) := by exact_mod_cast Nat.le_of_lt hδ
  unfold interp
  rw [div_le_iff₀ hn]
  nlinarith [mul_le_mul_of_nonneg_right h1 (sub_nonneg.mpr hdn),
    mul_le_mul_of_nonneg_right h2 hd0]

lemma left_le_interp {s : List ℚ} {n j δ : ℕ} (hδ : δ < n)
    (hab : s.getD (j - 1) 0 ≤ s.getD j 0) : s.getD (j - 1) 0 ≤ interp s n j δ := by
  have hn : (0 : ℚ) < (n : ℚ) := by exact_mod_cast Nat.pos_of_ne_zero (by omega)
  have hd0 : (0 : ℚ) ≤ (δ : ℚ) := Nat.cast_nonneg δ
  unfold interp
  rw [le_div_iff₀ hn]
  nlinarith [mul_le_mul_of_nonneg_right hab hd0]

lemma interp_le_right {s : List ℚ} {n j δ : ℕ} (hδ : δ < n)
    (hab : s.getD (j - 1) 0 ≤ s.getD j 0) : interp s n j δ ≤ s.getD j 0 := by
  have hn : (0 : ℚ) < (n : ℚ) := by exact_mod_cast Nat.pos_of_ne_zero (by omega)
  have hdn : (δ : ℚ) ≤ (n : ℚ) := by exact_mod_cast Nat.le_of_lt hδ
  unfold interp
  rw [div_le_iff₀ hn]
  nlinarith [mul_le_mul_of_nonneg_right hab (sub_nonneg.mpr hdn)]

lemma clampIndex_lt_length {ld : ℕ} (j0 : ℕ) (hld : 1 ≤ ld) : clampIndex ld j0 < ld := by
  unfold clampIndex; omega

lemma clampIndex_eq {ld j0 : ℕ} (h1 : 1 ≤ j0) (h2 : j0 ≤ ld - 1) :
    clampIndex ld j0 = j0 := by
  unfold clampIndex; omega

lemma quantiles_getD (data : List ℚ) (n k : ℕ) (hk : k < n - 1) :
    (quantiles data n).getD k 0 =
      quantilePoint (data.insertionSort (· ≤ ·)) n (k + 1) := by
  unfold quantiles
  rw [List.getD_eq_getElem?_getD, List.getElem?_map, List.getElem?_range hk]
  rfl

lemma quantilePoint_le {s : List ℚ} {M : ℚ} (n i : ℕ) (hn : 0 < n) (hs : s ≠ [])
    (hM : ∀ x ∈ s, x ≤ M) : quantilePoint s n i ≤ M := by
  have hld : 1 ≤ s.length := List.length_pos.mpr hs
  have hj : clampIndex s.length (i * (s.length + 1) / n) < s.length :=
    clampIndex_lt_length _ hld
  have hj1 : clampIndex s.length (i * (s.length + 1) / n) - 1 < s.length := by omega
  unfold quantilePoint
  exact interp_le_of_endpoints_le (Nat.mod_lt _ hn)
    (hM _ (getD_mem_of_lt s _ hj1)) (hM _ (getD_mem_of_lt s _ hj))

lemma quantilePoint_mono {s : List ℚ} (hs : s.Sorted (· ≤ ·)) (h : 100 ≤ s.length) :
    quantilePoint s 20 19 ≤ quantilePoint s 100 99 := by
  have hld : 1 ≤ s.length := by omega
  set ld := s.length with hldEq
  set m := ld + 1 with hm
  set j95 := 19 * m / 20 with hj95
  set δ95 := 19 * m % 20 with hδ95
  set j99 := 99 * m / 100 with hj99
  set δ99 := 99 * m % 100 with hδ99
  have hdm95 : 20 * j95 + δ95 = 19 * m := Nat.div_add_mod (19 * m) 20
  have hdm99 : 100 * j99 + δ99 = 99 * m := Nat.div_add_mod (99 * m) 100
  have hδ95lt : δ95 < 20 := Nat.mod_lt _ (by norm_num)
  have hδ99lt : δ99 < 100 := Nat.mod_lt _ (by norm_num)
  have hj95lo : 1 ≤ j95 := by rw [hj95, Nat.le_div_iff_mul_le (by norm_num)]; omega
  have hj95hi : j95 < ld := by rw [hj95, Nat.div_lt_iff_lt_mul (by norm_num)]; omega
  have hj99lo : 1 ≤ j99 := by rw [hj99, Nat.le_div_iff_mul_le (by norm_num)]; omega
  have hj99hi : j99 < ld := by rw [hj99, Nat.div_lt_iff_lt_mul (by norm_num)]; omega
  have e95 : clampIndex ld j95 = j95 := clampIndex_eq hj95lo (by omega)
  have e99 : clampIndex ld j99 = j99 := clampIndex_eq hj99lo (by omega)
  have hle : j95 ≤ j99 := by
    have h1 : j95 = 95 * m / 100 := by
      rw [hj95, show 95 * m = 19 * m * 5 by ring, show (100 : ℕ) = 20 * 5 by norm_num,
        Nat.mul_div_mul_right _ _ (by norm_num)]
    rw [h1, hj99]
    exact Nat.div_le_div_right (by omega)
  show interp s 20 (clampIndex ld j95) δ95 ≤ interp s 100 (clampIndex ld j99) δ99
  rw [e95, e99]
  rcases lt_or_eq_of_le hle with hlt | hEq
  · have hab95 : s.getD (j95 - 1) 0 ≤ s.getD j95 0 :=
      sorted_getD_mono hs (by omega) hj95hi
    have hab99 : s.getD (j99 - 1) 0 ≤ s.getD j99 0 :=
      sorted_getD_mono hs (by omega) hj99hi
    calc interp s 20 j95 δ95 ≤ s.getD j95 0 := interp_le_right hδ95lt hab95
      _ ≤ s.getD (j99 - 1) 0 := sorted_getD_mono hs (by omega) (by omega)
      _ ≤ interp s 100 j99 δ99 := left_le_interp hδ99lt hab99
  · have hδ : 5 * δ95 ≤ δ99 := by omega
    have hab : s.getD (j95 - 1) 0 ≤ s.getD j95 0 :=
      sorted_getD_mono hs (by omega) hj95hi
    rw [← hEq]
    unfold interp
    rw [div_le_div_iff₀ (by norm_num) (by norm_num)]
    have hδQ : (5 : ℚ) * (δ95 : ℚ) ≤ (δ99 : ℚ) := by exact_mod_cast hδ
    nlinarith [mul_le_mul_of_nonneg_right (sub_nonneg.mpr hab)
      (sub_nonneg.mpr hδQ : (0 : ℚ) ≤ (δ99 : ℚ) - 5 * (δ95 : ℚ))]

lemma reportP95_le_reportP99 (l : List ℚ) : reportP95 l ≤ reportP99 l := by
  have hsl : (l.insertionSort (· ≤ ·)).length = l.length :=
    (List.perm_insertionSort (· ≤ ·) l).length_eq
  by_cases h100 : 100 ≤ l.length
  · have h20 : 20 ≤ l.length := by omega
    unfold reportP95 reportP99
    rw [if_pos (by omega : l.length ≥ 20), if_pos (by omega : l.length ≥ 100),
      quantiles_getD l 20 18 (by norm_num), quantiles_getD l 100 98 (by norm_num)]
    exact quantilePoint_mono (List.sorted_insertionSort (· ≤ ·) l) (by omega)
  · by_cases h20 : 20 ≤ l.length
    · have hne : l ≠ [] := by
        intro hc; rw [hc] at h20; exact absurd h20 (by norm_num)
      unfold reportP95 reportP99
      rw [if_pos (by omega : l.length ≥ 20), if_neg (by omega : ¬ l.length ≥ 100),
        if_neg (by simp [hne] : ¬ l.isEmpty = true),
        quantiles_getD l 20 18 (by norm_num)]
      refine quantilePoint_le 20 19 (by norm_num) ?_ ?_
      · intro hc
        rw [← List.length_eq_zero, hsl] at hc; omega
      · intro x hx
        exact le_listMax ((List.perm_insertionSort (· ≤ ·) l).mem_iff.mp hx)
    · unfold reportP95 reportP99
      rw [if_neg (by omega : ¬ l.length ≥ 20), if_neg (by omega : ¬ l.length ≥ 100)]

lemma generate_report_ok {mw : ℕ} {results : List TestResult} {d : ℚ}
    {rep : StressTestReport} (h : generate_report mw results d = Except.ok rep) :
    results ≠ [] ∧ rep = reportOf mw results d := by
  unfold generate_report at h
  by_cases he : results.isEmpty
  · rw [if_pos he] at h; cases h
  · rw [if_neg he] at h
    refine ⟨fun hc => he (by simp [hc]), ?_⟩
    cases h; rfl

lemma reportOf_p95 (mw : ℕ) (results : List TestResult) (d : ℚ) :
    (reportOf mw results d).p95_response_time = reportP95 (successDurations results) := rfl

lemma reportOf_p99 (mw : ℕ) (results : List TestResult) (d : ℚ) :
    (reportOf mw results d).p99_response_time = reportP99 (successDurations results) := rfl

lemma reportOf_counts (mw : ℕ) (results : List TestResult) (d : ℚ) :
    (reportOf mw results d).total_requests = results.length ∧
    (reportOf mw results d).successful_requests = (results.filter (fun r => r.success)).length ∧
    (reportOf mw results d).failed_requests = (results.filter (fun r => !r.success)).length ∧
    (reportOf mw results d).success_rate =
      ((results.filter (fun r => r.success)).length : ℚ) / (results.length : ℚ) * 100 :=
  ⟨rfl, rfl, rfl, rfl⟩

/-- Claim C5: for every outcome population that yields a report, the
report's successful count plus its failed count equals its total count. -/
theorem C5_successful_add_failed_eq_total (mw : ℕ) (results : List TestResult)
    (d : ℚ) (rep : StressTestReport)
    (h : generate_report mw results d = Except.ok rep) :
    rep.successful_requests + rep.failed_requests = rep.total_requests := by
  obtain ⟨-, rfl⟩ := generate_report_ok h
  obtain ⟨h1, h2, h3, -⟩ := reportOf_counts mw results d
  rw [h1, h2, h3]
  exact length_filter_add_not _ results

/-- Witness for C5 at the concrete population `[resOk, resFail]`. -/
theorem C5_witness :
    (reportOf 10 [resOk, resFail] 1).successful_requests
      + (reportOf 10 [resOk, resFail] 1).failed_requests
      = (reportOf 10 [resOk, resFail] 1).total_requests :=
  C5_successful_add_failed_eq_total 10 [resOk, resFail] 1 _ rfl

/-- Claim C6: for every outcome population that yields a report, the
99th-percentile latency field is at least the 95th-percentile latency
field. -/
theorem C6_p95_le_p99 (mw : ℕ) (results : List TestResult) (d : ℚ)
    (rep : StressTestReport)
    (h : generate_report mw results d = Except.ok rep) :
    rep.p95_response_time ≤ rep.p99_response_time := by
  obtain ⟨-, rfl⟩ := generate_report_ok h
  rw [reportOf_p95, reportOf_p99]
  exact reportP95_le_reportP99 _

/-- Witness for C6 at the concrete population `[resOk]`. -/
theorem C6_witness :
    (reportOf 10 [resOk] 1).p95_response_time ≤ (reportOf 10 [resOk] 1).p99_response_time :=
  C6_p95_le_p99 10 [resOk] 1 _ rfl

/-- Counterexample to claim C1 as stated: for the one-element all-success
population the computed success rate is `100`, not `successful / total = 1`,
and it lies outside `[0, 1]` (the code multiplies by 100, producing a
percentage). -/
theorem C1_counterexample :
    Except.map (fun r => r.success_rate) (generate_report 10 [resOk] 1) = Except.ok 100
    ∧ ((100 : ℚ) ≠ 1 / 1) ∧ ¬ ((100 : ℚ) ≤ 1) := by
  refine ⟨?_, by norm_num, by norm_num⟩
  have h : (reportOf 10 [resOk] 1).success_rate = 100 := by
    rw [(reportOf_counts 10 [resOk] 1).2.2.2]
    norm_num [resOk]
  rw [← h]; rfl

/-- Claim C1 as amended: for every non-empty outcome population the
success rate equals `successful / total * 100`, lies within `[0, 100]`,
and equals `0` exactly when the successful count is `0`. -/
theorem C1_success_rate_percent (mw : ℕ) (results : List TestResult) (d : ℚ)
    (rep : StressTestReport)
    (h : generate_report mw results d = Except.ok rep) :
    rep.success_rate =
      ((results.filter (fun r => r.success)).length : ℚ) / (results.length : ℚ) * 100
    ∧ 0 ≤ rep.success_rate ∧ rep.success_rate ≤ 100
    ∧ (rep.success_rate = 0 ↔ (results.filter (fun r => r.success)).length = 0) := by
  obtain ⟨hne, rfl⟩ := generate_report_ok h
  obtain ⟨-, -, -, h4⟩ := reportOf_counts mw results d
  have hn : (0 : ℚ) < (results.length : ℚ) := by
    exact_mod_cast List.length_pos.mpr hne
  have hs : ((results.filter (fun r => r.success)).length : ℚ) ≤ (results.length : ℚ) := by
    exact_mod_cast List.length_filter_le _ results
  refine ⟨h4, ?_, ?_, ?_⟩
  · rw [h4]; positivity
  · rw [h4]
    have hdiv : ((results.filter (fun r => r.success)).length : ℚ) / (results.length : ℚ) ≤ 1 :=
      (div_le_one hn).mpr hs
    nlinarith
  · rw [h4]
    constructor
    · intro h0
      rcases mul_eq_zero.mp h0 with h1 | h1
      · rcases div_eq_zero_iff.mp h1 with h2 | h2
        · exact_mod_cast h2
        · exact absurd h2 (ne_of_gt hn)
      · norm_num at h1
    · intro h0; rw [h0]; norm_num

/-- Witness for C1 (amended) at the concrete population `[resOk, resFail]`. -/
theorem C1_witness :
    (reportOf 10 [resOk, resFail] 2).success_rate =
      ((([resOk, resFail] : List TestResult).filter (fun r => r.success)).length : ℚ)
        / (([resOk, resFail] : List TestResult).length : ℚ) * 100
    ∧ 0 ≤ (reportOf 10 [resOk, resFail] 2).success_rate
    ∧ (reportOf 10 [resOk, resFail] 2).success_rate ≤ 100
    ∧ ((reportOf 10 [resOk, resFail] 2).success_rate = 0 ↔
        (([resOk, resFail] : List TestResult).filter (fun r => r.success)).length = 0) :=
  C1_success_rate_percent 10 [resOk, resFail] 2 _ rfl

/-- Counterexample to claim C2 as stated: summarizing the empty outcome
population raises `ValueError("No results to analyze")` instead of
returning a zero-default report. -/
theorem C2_counterexample :
    generate_report 10 ([] : List TestResult) 1 = Except.error "No results to analyze" := rfl

/-- Claim C2 as amended: summarizing an empty population raises
`ValueError`; for every non-empty population summarization returns a
report without raising, and when no outcome succeeded the latency fields
fall back to the explicit zero-defaults. -/
theorem C2_nonempty_no_exception (mw : ℕ) (results : List TestResult) (d : ℚ)
    (hne : results ≠ []) :
    generate_report mw results d = Except.ok (reportOf mw results d)
    ∧ (results.filter (fun r => r.success) = [] →
        (reportOf mw results d).avg_response_time = 0
        ∧ (reportOf mw results d).min_response_time = 0
        ∧ (reportOf mw results d).max_response_time = 0
        ∧ (reportOf mw results d).p95_response_time = 0
        ∧ (reportOf mw results d).p99_response_time = 0) := by
  constructor
  · unfold generate_report
    rw [if_neg (by simp [hne])]
  · intro hfail
    have hd : successDurations results = [] := by
      unfold successDurations; rw [hfail]; rfl
    refine ⟨?_, ?_, ?_, ?_, ?_⟩ <;>
      simp [reportOf, hd, reportP95, reportP99]

/-- Witness for C2 (amended) at the concrete population `[resFail]`. -/
theorem C2_witness :
    generate_report 10 [resFail] 1 = Except.ok (reportOf 10 [resFail] 1)
    ∧ (([resFail] : List TestResult).filter (fun r => r.success) = [] →
        (reportOf 10 [resFail] 1).avg_response_time = 0
        ∧ (reportOf 10 [resFail] 1).min_response_time = 0
        ∧ (reportOf 10 [resFail] 1).max_response_time = 0
        ∧ (reportOf 10 [resFail] 1).p95_response_time = 0
        ∧ (reportOf 10 [resFail] 1).p99_response_time = 0) :=
  C2_nonempty_no_exception 10 [resFail] 1 (List.cons_ne_nil _ _)

lemma successDurations_res20 : successDurations res20 = dur20 := by
  simp [res20, successDurations, mkOk, dur20]

lemma dur20_sorted : List.Sorted (· ≤ ·) dur20 := by
  norm_num [dur20, List.sorted_cons]

lemma insertionSort_dur20 : dur20.insertionSort (· ≤ ·) = dur20 :=
  List.eq_of_perm_of_sorted (List.perm_insertionSort _ _)
    (List.sorted_insertionSort _ _) dur20_sorted

lemma listMax_dur20 : listMax dur20 = 20 := by
  refine le_antisymm ?_ (le_listMax (by norm_num [dur20]))
  have hall : ∀ x ∈ dur20, x ≤ (20 : ℚ) := by norm_num [dur20]
  exact hall _ (listMax_mem (by simp [dur20]))

lemma quantile99_dur20 : (quantiles dur20 100).getD 98 0 = 1979 / 100 := by
  rw [quantiles_getD dur20 100 98 (by norm_num), insertionSort_dur20]
  unfold quantilePoint clampIndex interp
  norm_num [dur20, List.getD_cons_succ, List.getD_cons_zero]

/-- Counterexample to claim C3 as stated: for a population whose 20
successful durations are `1, ..., 20`, the report's 99th-percentile field
is the maximum (`20`), not the value of the rank-based quantile method
(`statistics.quantiles(durations, n=100)[98] = 19.79`): the quantile
method is used for p99 only from 100 successful durations on. -/
theorem C3_counterexample :
    (successDurations res20).length = 20
    ∧ Except.map (fun r => r.p99_response_time) (generate_report 10 res20 1) = Except.ok 20
    ∧ (quantiles (successDurations res20) 100).getD 98 0 = 1979 / 100
    ∧ ((20 : ℚ) ≠ 1979 / 100) := by
  refine ⟨by rw [successDurations_res20]; rfl, ?_,
    by rw [successDurations_res20]; exact quantile99_dur20, by norm_num⟩
  have hp : (reportOf 10 res20 1).p99_response_time = 20 := by
    rw [reportOf_p99, successDurations_res20]
    unfold reportP99
    rw [if_neg (by norm_num [dur20]), if_neg (by norm_num [dur20])]
    exact listMax_dur20
  rw [← hp]; rfl

/-- Claim C3 as amended: p95 is computed by the rank-based quantile
method when the successful-duration count is at least 20 and degrades to
the maximum observed successful duration below that; p99 uses the same
rank-based quantile method only from 100 successful durations on and
degrades to the maximum below 100 (both are 0 when no trial succeeded). -/
theorem C3_percentile_policy (mw : ℕ) (results : List TestResult) (d : ℚ)
    (rep : StressTestReport)
    (h : generate_report mw results d = Except.ok rep) :
    (20 ≤ (successDurations results).length →
      rep.p95_response_time = (quantiles (successDurations results) 20).getD 18 0)
    ∧ ((successDurations results).length < 20 → successDurations results ≠ [] →
      rep.p95_response_time = listMax (successDurations results))
    ∧ (100 ≤ (successDurations results).length →
      rep.p99_response_time = (quantiles (successDurations results) 100).getD 98 0)
    ∧ ((successDurations results).length < 100 → successDurations results ≠ [] →
      rep.p99_response_time = listMax (successDurations results)) := by
  obtain ⟨-, rfl⟩ := generate_report_ok h
  refine ⟨?_, ?_, ?_, ?_⟩
  · intro h20
    rw [reportOf_p95]; unfold reportP95; rw [if_pos h20]
  · intro h20 hne
    rw [reportOf_p95]; unfold reportP95
    rw [if_neg (by omega), if_neg (by simp [hne])]
  · intro h100
    rw [reportOf_p99]; unfold reportP99; rw [if_pos h100]
  · intro h100 hne
    rw [reportOf_p99]; unfold reportP99
    rw [if_neg (by omega), if_neg (by simp [hne])]

/-- Witness for C3 (amended) at the concrete population `res20`. -/
theorem C3_witness :
    (20 ≤ (successDurations res20).length →
      (reportOf 10 res20 1).p95_response_time = (quantiles (successDurations res20) 20).getD 18 0)
    ∧ ((successDurations res20).length < 20 → successDurations res20 ≠ [] →
      (reportOf 10 res20 1).p95_response_time = listMax (successDurations res20))
    ∧ (100 ≤ (successDurations res20).length →
      (reportOf 10 res20 1).p99_response_time = (quantiles (successDurations res20) 100).getD 98 0)
    ∧ ((successDurations res20).length < 100 → successDurations res20 ≠ [] →
      (reportOf 10 res20 1).p99_response_time = listMax (successDurations res20)) :=
  C3_percentile_policy 10 res20 1 _ rfl

/-- Counterexample to claim C4 as stated: a threaded run of `N = 1` trial
on a tester whose results list already holds one outcome returns 2
outcomes, not exactly `N = 1` (the method returns the persistent
`self.results` list). -/
theorem C4_counterexample :
    (([0] : List ℕ).Perm (List.range ([envExn] : List TrialEnv).length))
    ∧ (run_threaded_stress_test [resOk] [envExn] [0]).length = 2
    ∧ (2 : ℕ) ≠ 1 := by
  refine ⟨by decide, rfl, by decide⟩

/-- Claim C4 as amended: the bounded-fan-out executor always returns
exactly `N` outcomes; the threaded executor returns exactly `N` outcomes
when the tester's results list is empty at entry; and a raised exception
inside a single trial (transport error or timeout) is recorded by both
disciplines as a failed outcome carrying the error description instead of
propagating. -/
theorem C4_executor_contract (envs : List TrialEnv) (order : List ℕ) (tid : ℕ)
    (env : TrialEnv) (msg : String)
    (hord : order.Perm (List.range envs.length)) (hexn : env.net = NetResult.exn msg) :
    (run_threaded_stress_test [] envs order).length = envs.length
    ∧ (run_concurrent_requests envs).length = envs.length
    ∧ (single_request tid env).success = false
    ∧ (single_request tid env).error = some msg
    ∧ (worker_result tid env).success = false
    ∧ (worker_result tid env).error = some msg := by
  have l1 : order.length = envs.length := by
    rw [hord.length_eq, List.length_range]
  refine ⟨?_, ?_, ?_, ?_, ?_, ?_⟩
  · unfold run_threaded_stress_test
    simp [l1]
  · unfold run_concurrent_requests
    simp
  · unfold single_request; rw [hexn]
  · unfold single_request; rw [hexn]
  · unfold worker_result; rw [hexn]
  · unfold worker_result; rw [hexn]

/-- Witness for C4 (amended) at one timed-out trial. -/
theorem C4_witness :
    (run_threaded_stress_test [] [envExn] [0]).length = ([envExn] : List TrialEnv).length
    ∧ (run_concurrent_requests [envExn]).length = ([envExn] : List TrialEnv).length
    ∧ (single_request 0 envExn).success = false
    ∧ (single_request 0 envExn).error = some "timeout"
    ∧ (worker_result 0 envExn).success = false
    ∧ (worker_result 0 envExn).error = some "timeout" :=
  C4_executor_contract [envExn] [0] 0 envExn "timeout" (by decide) rfl

/-- Claim C9: the threaded executor appends to the persistent results
list without clearing it and returns it, so the returned population has
`init.length + N` entries, and a second invocation on the same tester
returns `N₁ + N₂` entries; exactly-`N` holds only from an empty results
list. -/
theorem C9_results_accumulate (init : List TestResult) (e1 : List TrialEnv)
    (o1 : List ℕ) (e2 : List TrialEnv) (o2 : List ℕ)
    (h1 : o1.Perm (List.range e1.length)) (h2 : o2.Perm (List.range e2.length)) :
    (run_threaded_stress_test init e1 o1).length = init.length + e1.length
    ∧ (run_threaded_stress_test (run_threaded_stress_test [] e1 o1) e2 o2).length
        = e1.length + e2.length := by
  have l1 : o1.length = e1.length := by rw [h1.length_eq, List.length_range]
  have l2 : o2.length = e2.length := by rw [h2.length_eq, List.length_range]
  unfold run_threaded_stress_test
  simp [l1, l2]

/-- Witness for C9 at two concrete one-trial runs. -/
theorem C9_witness :
    (run_threaded_stress_test [resOk] [envExn] [0]).length
        = ([resOk] : List TestResult).length + ([envExn] : List TrialEnv).length
    ∧ (run_threaded_stress_test (run_threaded_stress_test [] [envExn] [0]) [env201] [0]).length
        = ([envExn] : List TrialEnv).length + ([env201] : List TrialEnv).length :=
  C9_results_accumulate [resOk] [envExn] [0] [env201] [0] (by decide) (by decide)

/-- Claim C7: in the batched (threaded) discipline with concurrency bound
`C ≥ 1`, the in-flight thread count recorded in the dispatch-loop trace
never exceeds `C`: each batch is joined in full before the next thread
starts once `C` threads are live. -/
theorem C7_inflight_bounded (N C x : ℕ) (hC : 1 ≤ C)
    (hx : x ∈ batchedInflight N C) : x ≤ C := by
  have hstep : ∀ (st : List ℕ × ℕ) (i : ℕ), (∀ y ∈ st.1, y ≤ C) → st.2 < C →
      (∀ y ∈ (batchedStep C st i).1, y ≤ C) ∧ (batchedStep C st i).2 < C := by
    intro st i h1 h2
    simp only [batchedStep]
    split_ifs with hcnt
    · refine ⟨?_, by omega⟩
      intro y hy
      rcases List.mem_append.mp hy with hy | hy
      · exact h1 y hy
      · simp at hy; omega
    · refine ⟨?_, by omega⟩
      intro y hy
      rcases List.mem_append.mp hy with hy | hy
      · exact h1 y hy
      · simp at hy; omega
  have hfold : ∀ (l : List ℕ) (st : List ℕ × ℕ), (∀ y ∈ st.1, y ≤ C) → st.2 < C →
      (∀ y ∈ (l.foldl (batchedStep C) st).1, y ≤ C) ∧ (l.foldl (batchedStep C) st).2 < C := by
    intro l
    induction l with
    | nil => intro st h1 h2; exact ⟨h1, h2⟩
    | cons i is ih =>
        intro st h1 h2
        rw [List.foldl_cons]
        obtain ⟨g1, g2⟩ := hstep st i h1 h2
        exact ih _ g1 g2
  unfold batchedInflight at hx
  rcases List.mem_append.mp hx with hx | hx
  · exact (hfold (List.range N) ([], 0) (by simp) (by omega)).1 x hx
  · simp at hx; omega

/-- Witness for C7 at the spec's E2E scenario `N = 25`, `C = 5`: the
value 5 occurs in the trace and is within the bound. -/
theorem C7_witness : (5 : ℕ) ≤ 5 :=
  C7_inflight_bounded 25 5 5 (by decide) (by decide)

/-- Claim C10: for a trial that received a response, the outcome's
success flag is true iff the status code is exactly 200, and its error
description stays unset (`None`) whatever the status code is — in both
the fan-out and the threaded trial bodies. -/
theorem C10_success_iff_200 (tid : ℕ) (env : TrialEnv) (status blen : ℕ)
    (h : env.net = NetResult.respond status blen) :
    ((single_request tid env).success = true ↔ status = 200)
    ∧ (single_request tid env).error = none
    ∧ ((worker_result tid env).success = true ↔ status = 200)
    ∧ (worker_result tid env).error = none := by
  unfold single_request worker_result
  rw [h]
  refine ⟨?_, rfl, ?_, rfl⟩ <;> simp

/-- Witness for C10 at a `201 Created` response: the outcome is failed
(201 ≠ 200) with no error description. -/
theorem C10_witness :
    ((single_request 0 env201).success = true ↔ (201 : ℕ) = 200)
    ∧ (single_request 0 env201).error = none
    ∧ ((worker_result 0 env201).success = true ↔ (201 : ℕ) = 200)
    ∧ (worker_result 0 env201).error = none :=
  C10_success_iff_200 0 env201 201 5 rfl

lemma isEmpty_eq_of_perm {α : Type} {l₁ l₂ : List α} (h : l₁.Perm l₂) :
    l₁.isEmpty = l₂.isEmpty := by
  cases l₁ with
  | nil => rw [← List.Perm.nil_eq h]
  | cons x xs =>
      cases l₂ with
      | nil => exact absurd (List.Perm.eq_nil h) (List.cons_ne_nil x xs)
      | cons y ys => rfl

/-- Claim C8: summarization is deterministic and depends on the outcome
population only through its multiset of records: permuting the
record-arrival order leaves the generated report (and the empty-input
error) unchanged. -/
theorem C8_report_order_independent (mw : ℕ) (d : ℚ) (r₁ r₂ : List TestResult)
    (h : r₁.Perm r₂) : generate_report mw r₁ d = generate_report mw r₂ d := by
  have hlen : r₁.length = r₂.length := h.length_eq
  have hsuc := h.filter (fun r => r.success)
  have hfail := h.filter (fun r => !r.success)
  have hdur : (successDurations r₁).Perm (successDurations r₂) :=
    List.Perm.map _ hsuc
  have hsort : (successDurations r₁).insertionSort (· ≤ ·)
      = (successDurations r₂).insertionSort (· ≤ ·) :=
    List.eq_of_perm_of_sorted
      ((List.perm_insertionSort _ _).trans (hdur.trans (List.perm_insertionSort _ _).symm))
      (List.sorted_insertionSort _ _) (List.sorted_insertionSort _ _)
  have hdlen := hdur.length_eq
  have hde : (successDurations r₁).isEmpty = (successDurations r₂).isEmpty :=
    isEmpty_eq_of_perm hdur
  have hsum := hdur.sum_eq
  have hmax := listMax_perm hdur
  have hmin := listMin_perm hdur
  have hp95 : reportP95 (successDurations r₁) = reportP95 (successDurations r₂) := by
    unfold reportP95 quantiles
    simp only [hdlen, hsort, hde, hmax]
  have hp99 : reportP99 (successDurations r₁) = reportP99 (successDurations r₂) := by
    unfold reportP99 quantiles
    simp only [hdlen, hsort, hde, hmax]
  have hrep : reportOf mw r₁ d = reportOf mw r₂ d := by
    simp only [reportOf, StressTestReport.mk.injEq]
    refine ⟨hlen, hsuc.length_eq, hfail.length_eq, ?_, ?_, ?_, ?_, hp95, hp99,
      ?_, trivial, ?_, ?_, ?_⟩
    · rw [hsuc.length_eq, hlen]
    · rw [hde, hsum, hdlen]
    · rw [hde, hmin]
    · rw [hde, hmax]
    · rw [hlen]
    · rw [hlen]
    · rw [hlen]
    · rw [hlen]
  unfold generate_report
  rw [isEmpty_eq_of_perm h, hrep]

/-- Witness for C8 at a concrete two-element population and its swap. -/
theorem C8_witness :
    generate_report 10 [resOk, resFail] 1 = generate_report 10 [resFail, resOk] 1 :=
  C8_report_order_independent 10 1 [resOk, resFail] [resFail, resOk]
    (List.Perm.swap resFail resOk [])
